import Mathlib

/-!
# Verification of the Human-Head eye-mechanism control code

Shallow embedding, in Lean 4, of the calibration and bounds-enforced motion
control logic of the repository (principally `final_human_bounds.py`, with
the variant clockwise sweep of `BOUNDS_DETECTION.py` and the gaze behaviour
engine of `combined_code.py`).

Angles and currents are modelled as rationals (`ℚ`): the Python code works
with floats, but every arithmetic operation appearing in the modelled code
(addition, subtraction, multiplication by constants, halving, comparison)
is exact on the values the code manipulates, so `ℚ` is a faithful carrier.

Side effects are made explicit:
* servo writes (`servos[n].angle = a`) become elements of a `List (Fin 6 × ℚ)`
  of write events, in program order;
* the mutable global `servo_bounds` dictionary becomes a `BoundsTable`
  value threaded through the functions;
* current readings taken during a sweep become a trace `ℕ → ℚ` giving the
  value returned by `read_current()` at each successive sampling step;
* `while` loops that terminate by a monotone counter are embedded with an
  explicit fuel argument, with fuel chosen far above the loop's actual
  iteration bound, and the fuel-exhaustion result equal to the loop's
  natural-exit result.
-/

namespace HumanHead

/-- One entry of `servo_bounds`: `{"min": …, "max": …, "center": …}`
(`final_human_bounds.py`, line 36). -/
structure Bounds where
  min : ℚ
  max : ℚ
  center : ℚ
deriving DecidableEq, Repr

/-- The `servo_bounds` dictionary, keyed by servo channel 0–5. -/
def BoundsTable : Type := Fin 6 → Bounds

instance : DecidableEq BoundsTable := inferInstanceAs (DecidableEq (Fin 6 → Bounds))

/-- `servo_bounds = {i: {"min": 0, "max": 180, "center": 90} for i in range(6)}`
(`final_human_bounds.py`, line 36): the table before any calibration. -/
def initial_servo_bounds : BoundsTable := fun _ => ⟨0, 180, 90⟩

/-- The clamping expression `max(min_bound, min(max_bound, angle))` used by
`move_servo_safe` and `move_servo_thread` (`final_human_bounds.py`,
lines 226 and 235). -/
def constrained_angle (tbl : BoundsTable) (servo_num : Fin 6) (angle : ℚ) : ℚ :=
  max (tbl servo_num).min (min (tbl servo_num).max angle)

/-- `move_servo_safe` (`final_human_bounds.py`, lines 220–229): clamps the
requested angle to the channel's bounds, writes it to the servo, and returns
it.  The first component is the list of servo writes issued, the second the
Python return value. -/
def move_servo_safe (tbl : BoundsTable) (servo_num : Fin 6) (angle : ℚ) :
    List (Fin 6 × ℚ) × ℚ :=
  let constrained := constrained_angle tbl servo_num angle
  ([(servo_num, constrained)], constrained)

/-- A bounds table whose every entry is `{min: 10, max: 160, center: 85}`,
used to instantiate end-to-end scenario B. -/
def scenarioB_table : BoundsTable := fun _ => ⟨10, 160, 85⟩

/-- **C1.** `move_servo_safe` sends exactly the clamp of the requested angle
into `[min, max]` and returns that value; clamping is idempotent; an
in-range request is sent unchanged; and with bounds `{min:10, max:160}` a
request of `200` returns `160`. -/
theorem move_servo_safe_clamps :
    (∀ tbl s a, (move_servo_safe tbl s a).1 = [(s, constrained_angle tbl s a)] ∧
      (move_servo_safe tbl s a).2 = constrained_angle tbl s a) ∧
    (∀ tbl s a, constrained_angle tbl s (constrained_angle tbl s a) =
      constrained_angle tbl s a) ∧
    (∀ tbl s a, (tbl s).min ≤ a → a ≤ (tbl s).max →
      (move_servo_safe tbl s a).2 = a ∧ (move_servo_safe tbl s a).1 = [(s, a)]) ∧
    (∀ tbl s, (tbl s).min = 10 → (tbl s).max = 160 →
      (move_servo_safe tbl s 200).2 = 160) := by
  refine ⟨fun tbl s a => ⟨rfl, rfl⟩, fun tbl s a => ?_, fun tbl s a h1 h2 => ?_,
    fun tbl s h1 h2 => ?_⟩
  · unfold constrained_angle
    rcases le_total (tbl s).min (tbl s).max with h | h <;>
      rcases le_total a (tbl s).max with h1 | h1 <;>
      rcases le_total a (tbl s).min with h2 | h2 <;>
      simp only [max_def, min_def] <;> split_ifs <;> linarith
  · constructor
    · show constrained_angle tbl s a = a
      unfold constrained_angle
      rw [min_eq_right h2, max_eq_right h1]
    · show [(s, constrained_angle tbl s a)] = [(s, a)]
      unfold constrained_angle
      rw [min_eq_right h2, max_eq_right h1]
  · show constrained_angle tbl s 200 = 160
    unfold constrained_angle
    rw [h1, h2]
    norm_num

/-- Concrete instantiation of `move_servo_safe_clamps`: scenario B
(`moveOne(ch, 200) = 160` under `{min:10, max:160}`) and an in-range request
(`90`) passing through unchanged. -/
theorem move_servo_safe_clamps_witness :
    (move_servo_safe scenarioB_table 0 200).2 = 160 ∧
    (move_servo_safe scenarioB_table 0 90).2 = 90 := by
  refine ⟨move_servo_safe_clamps.2.2.2 scenarioB_table 0 rfl rfl, ?_⟩
  exact (move_servo_safe_clamps.2.2.1 scenarioB_table 0 90 (by norm_num [scenarioB_table])
    (by norm_num [scenarioB_table])).1

/-! ## Calibration sweeps

`detect_bounds_for_servo` (`final_human_bounds.py`, lines 83–171) runs two
`while` loops.  Each loop is embedded as a fueled recursion over

* the trip threshold `threshold`,
* the bounce-back margin `margin` (`5` in `final_human_bounds.py`,
  `3` in the `BOUNDS_DETECTION.py` variant),
* the trace `trace : ℕ → ℚ` of successive `read_current()` results
  (`trace k` is the value returned by the `k`-th read of that loop,
  counting from 0),
* the running commanded angle and the zero-based count of reads taken.

The result pairs the list of angles written to the servo (in order) with
the bound the loop computes.  Fuel exhaustion returns the loop's
natural-exit bound (`180` clockwise, `0` counter-clockwise); the fuel used
below (400) strictly exceeds the iteration count of every run whose start
angle lies in the mechanical range `[0, 180]`, so exhaustion never occurs
on the executions the claims quantify over. -/

/-- Clockwise sweep (`final_human_bounds.py`, lines 107–117): starting from
the current angle, step up by 1° until `current > threshold` (then
`max_bound = angle - margin`) or the angle passes 180° (then
`max_bound = 180`). -/
def cw_sweep_aux (threshold margin : ℚ) (trace : ℕ → ℚ) :
    ℚ → ℕ → ℕ → List ℚ × ℚ
  | _, _, 0 => ([], 180)
  | angle, k, fuel + 1 =>
    if angle ≤ 180 then
      if threshold < trace k then ([angle], angle - margin)
      else
        let r := cw_sweep_aux threshold margin trace (angle + 1) (k + 1) fuel
        (angle :: r.1, r.2)
    else ([], 180)

/-- Counter-clockwise sweep (`final_human_bounds.py`, lines 119–141):
starting from `max_bound`, step down by 1°; the first 20 reads are not
checked against the threshold (`if loop_count <= 20: continue`); afterwards
`current > threshold` stops the loop with `min_bound = angle + margin`;
passing below 0° stops it with `min_bound = 0`.  `cnt` is the value of
`loop_count` before the iteration's increment. -/
def ccw_sweep_aux (threshold margin : ℚ) (trace : ℕ → ℚ) :
    ℚ → ℕ → ℕ → List ℚ × ℚ
  | _, _, 0 => ([], 0)
  | angle, cnt, fuel + 1 =>
    if 0 ≤ angle then
      if cnt + 1 ≤ 20 then
        let r := ccw_sweep_aux threshold margin trace (angle - 1) (cnt + 1) fuel
        (angle :: r.1, r.2)
      else if threshold < trace cnt then ([angle], angle + margin)
      else
        let r := ccw_sweep_aux threshold margin trace (angle - 1) (cnt + 1) fuel
        (angle :: r.1, r.2)
    else ([], 0)

/-- Loop fuel used by the embedding; both sweep loops run at most
186 iterations from any start angle in `[0, 180]`. -/
def sweep_fuel : ℕ := 400

/-- Threshold selection of `detect_bounds_for_servo`
(`final_human_bounds.py`, lines 88–96): servo 2 uses `servo2_threshold = 8.0`,
servo 3 uses `servo3_threshold = 10.0`, all others `current_threshold = 7.0`. -/
def threshold_for_servo (servo_num : Fin 6) : ℚ :=
  if servo_num = 2 then 8 else if servo_num = 3 then 10 else 7

/-- The per-channel environment a calibration run depends on: the angle the
servo rests at when calibration starts, and the two traces of
`read_current()` values sampled during the clockwise and counter-clockwise
sweeps. -/
structure CalibEnv where
  start : ℚ
  cwTrace : ℕ → ℚ
  ccwTrace : ℕ → ℚ

/-- Result of `detect_bounds_for_servo`: the updated `servo_bounds` table,
the servo writes issued (sweep steps plus the final resting write), and the
returned `(min_bound, max_bound, center_position)`. -/
structure CalibResult where
  table : BoundsTable
  writes : List (Fin 6 × ℚ)
  min_bound : ℚ
  max_bound : ℚ
  center : ℚ

/-- `detect_bounds_for_servo` (`final_human_bounds.py`, lines 83–171):
clockwise sweep from the start angle, counter-clockwise sweep from the
discovered `max_bound`, `center = (min_bound + max_bound) / 2`, store the
bounds, then move to the resting position — `max_bound` for servo 0,
`min_bound` for servo 4, `center` otherwise (lines 151–166). -/
def detect_bounds_for_servo (tbl : BoundsTable) (servo_num : Fin 6)
    (env : CalibEnv) : CalibResult :=
  let threshold := threshold_for_servo servo_num
  let cw := cw_sweep_aux threshold 5 env.cwTrace env.start 0 sweep_fuel
  let ccw := ccw_sweep_aux threshold 5 env.ccwTrace cw.2 0 sweep_fuel
  let min_bound := ccw.2
  let max_bound := cw.2
  let center_position := (min_bound + max_bound) / 2
  let tbl' := Function.update tbl servo_num
    ⟨min_bound, max_bound, center_position⟩
  let final_position :=
    if servo_num = 0 then max_bound
    else if servo_num = 4 then min_bound
    else center_position
  { table := tbl'
    writes := cw.1.map (fun a => (servo_num, a)) ++
      ccw.1.map (fun a => (servo_num, a)) ++ [(servo_num, final_position)]
    min_bound := min_bound
    max_bound := max_bound
    center := center_position }

/-- One unfolding of the clockwise sweep loop. -/
theorem cw_sweep_aux_succ (threshold margin : ℚ) (trace : ℕ → ℚ) (angle : ℚ)
    (k fuel : ℕ) :
    cw_sweep_aux threshold margin trace angle k (fuel + 1) =
      if angle ≤ 180 then
        if threshold < trace k then ([angle], angle - margin)
        else
          (angle :: (cw_sweep_aux threshold margin trace (angle + 1) (k + 1) fuel).1,
            (cw_sweep_aux threshold margin trace (angle + 1) (k + 1) fuel).2)
      else ([], 180) := rfl

/-- One unfolding of the counter-clockwise sweep loop. -/
theorem ccw_sweep_aux_succ (threshold margin : ℚ) (trace : ℕ → ℚ) (angle : ℚ)
    (cnt fuel : ℕ) :
    ccw_sweep_aux threshold margin trace angle cnt (fuel + 1) =
      if 0 ≤ angle then
        if cnt + 1 ≤ 20 then
          (angle :: (ccw_sweep_aux threshold margin trace (angle - 1) (cnt + 1) fuel).1,
            (ccw_sweep_aux threshold margin trace (angle - 1) (cnt + 1) fuel).2)
        else if threshold < trace cnt then ([angle], angle + margin)
        else
          (angle :: (ccw_sweep_aux threshold margin trace (angle - 1) (cnt + 1) fuel).1,
            (ccw_sweep_aux threshold margin trace (angle - 1) (cnt + 1) fuel).2)
      else ([], 0) := rfl

/-- As long as every read stays at or below the threshold and the angle stays
at or below 180°, the clockwise sweep marches upward: `n` trip-free steps
prepend the `n` visited angles to the writes and leave the bound to the rest
of the loop. -/
theorem cw_sweep_aux_skip (threshold margin : ℚ) (trace : ℕ → ℚ) :
    ∀ (n : ℕ) (angle : ℚ) (k fuel : ℕ),
      (∀ j : ℕ, j < n → angle + j ≤ 180 ∧ trace (k + j) ≤ threshold) →
      cw_sweep_aux threshold margin trace angle k (n + fuel) =
        ((List.range n).map (fun j : ℕ => angle + (j : ℚ)) ++
          (cw_sweep_aux threshold margin trace (angle + n) (k + n) fuel).1,
         (cw_sweep_aux threshold margin trace (angle + n) (k + n) fuel).2) := by
  intro n
  induction n with
  | zero => intro angle k fuel _; simp
  | succ n ih =>
    intro angle k fuel h
    obtain ⟨h180, hlow⟩ := h 0 (Nat.succ_pos n)
    have hcast : ∀ j : ℕ, angle + 1 + (j : ℚ) = angle + ((j + 1 : ℕ) : ℚ) := by
      intro j; push_cast; ring
    have h' : ∀ j : ℕ, j < n → angle + 1 + (j : ℚ) ≤ 180 ∧
        trace (k + 1 + j) ≤ threshold := by
      intro j hj
      obtain ⟨hj180, hjlow⟩ := h (j + 1) (by omega)
      refine ⟨?_, ?_⟩
      · calc angle + 1 + (j : ℚ) = angle + ((j + 1 : ℕ) : ℚ) := hcast j
          _ ≤ 180 := hj180
      · rw [show k + 1 + j = k + (j + 1) by omega]; exact hjlow
    have hfun : ((fun j : ℕ => angle + (j : ℚ)) ∘ Nat.succ) =
        fun j : ℕ => angle + 1 + (j : ℚ) := by
      funext j
      simp only [Function.comp]
      push_cast
      ring
    rw [show n + 1 + fuel = (n + fuel) + 1 by omega, cw_sweep_aux_succ,
      if_pos (by simpa using h180), if_neg (by simpa using not_lt.mpr hlow),
      ih (angle + 1) (k + 1) fuel h', ← hcast n,
      show k + (n + 1) = k + 1 + n by omega, List.range_succ_eq_map,
      List.map_cons, List.map_map, hfun, Nat.cast_zero, add_zero,
      List.cons_append]

/-- The current trace of end-to-end scenario A / claim C4: during the
clockwise sweep from 90°, the read taken at commanded angle `90 + k` is
9.0 mA at 150° and 0 elsewhere. -/
def scenarioA_trace : ℕ → ℚ := fun k => if (90 : ℚ) + k = 150 then 9 else 0

/-- In scenario A the first 60 reads (angles 90°–149°) stay below the
threshold 7.0. -/
theorem scenarioA_trace_low : ∀ j : ℕ, j < 60 →
    (90 : ℚ) + j ≤ 180 ∧ scenarioA_trace (0 + j) ≤ 7 := by
  intro j hj
  have hjq : (j : ℚ) < 60 := by exact_mod_cast hj
  refine ⟨by linarith, ?_⟩
  simp only [scenarioA_trace, Nat.zero_add]
  rw [if_neg (by intro heq; linarith)]
  norm_num

/-- **C4.** With threshold 7.0, increment 1°, start angle 90° and a current
trace reading 9.0 only at 150°, the clockwise sweep commands 150° last
(stops there) and records `max_bound = 150 - margin`: 145 with the
bounce-back margin 5 of `final_human_bounds.py`, and 147 with the margin 3
of the `BOUNDS_DETECTION.py` variant. -/
theorem cw_sweep_scenarioA :
    (cw_sweep_aux 7 5 scenarioA_trace 90 0 sweep_fuel).2 = 145 ∧
    (cw_sweep_aux 7 5 scenarioA_trace 90 0 sweep_fuel).1.getLast? = some 150 ∧
    (cw_sweep_aux 7 3 scenarioA_trace 90 0 sweep_fuel).2 = 147 := by
  have htrip : (7 : ℚ) < scenarioA_trace (0 + 60) := by
    simp only [scenarioA_trace, Nat.zero_add]
    rw [if_pos (by norm_num)]
    norm_num
  have hrun : ∀ margin : ℚ,
      cw_sweep_aux 7 margin scenarioA_trace 90 0 sweep_fuel =
        ((List.range 60).map (fun j : ℕ => (90 : ℚ) + (j : ℚ)) ++ [(150 : ℚ)],
          150 - margin) := by
    intro margin
    rw [show sweep_fuel = 60 + 340 from rfl,
      cw_sweep_aux_skip 7 margin scenarioA_trace 60 90 0 340 scenarioA_trace_low,
      show (90 : ℚ) + (60 : ℕ) = 150 by norm_num,
      show (340 : ℕ) = 339 + 1 from rfl, cw_sweep_aux_succ,
      if_pos (by norm_num), if_pos htrip]
  refine ⟨by rw [hrun 5]; norm_num, ?_, by rw [hrun 3]; norm_num⟩
  rw [hrun 5]
  simp

/-- Where the clockwise sweep's bound can come from: either no trip occurred
(`180`), or the trip happened at a commanded angle `angle + j ≤ 180` whose
read exceeded the threshold, and the bound is that angle minus the margin. -/
theorem cw_sweep_aux_bound (threshold margin : ℚ) (t : ℕ → ℚ) :
    ∀ (fuel : ℕ) (angle : ℚ) (k : ℕ),
      (cw_sweep_aux threshold margin t angle k fuel).2 = 180 ∨
      ∃ j : ℕ, (cw_sweep_aux threshold margin t angle k fuel).2 =
          angle + j - margin ∧ angle + (j : ℚ) ≤ 180 ∧ threshold < t (k + j) := by
  intro fuel
  induction fuel with
  | zero => intro angle k; left; rfl
  | succ fuel ih =>
    intro angle k
    rw [cw_sweep_aux_succ]
    by_cases h180 : angle ≤ 180
    · rw [if_pos h180]
      by_cases htrip : threshold < t k
      · rw [if_pos htrip]
        right
        exact ⟨0, by push_cast; ring_nf, by simpa using h180, by simpa using htrip⟩
      · rw [if_neg htrip]
        rcases ih (angle + 1) (k + 1) with h | ⟨j, he, hle, ht⟩
        · left; exact h
        · right
          refine ⟨j + 1, ?_, ?_, ?_⟩
          · show (cw_sweep_aux threshold margin t (angle + 1) (k + 1) fuel).2 = _
            rw [he]; push_cast; ring
          · calc angle + ((j + 1 : ℕ) : ℚ) = angle + 1 + j := by push_cast; ring
              _ ≤ 180 := hle
          · rw [show k + (j + 1) = k + 1 + j by omega]; exact ht
    · rw [if_neg h180]; left; rfl

/-- Where the counter-clockwise sweep's bound can come from: either no trip
occurred (`0`), or the trip happened at step `cnt + j` with `cnt + j ≥ 20`
(outside the grace window), at the still-nonnegative angle `angle - j`, and
the bound is that angle plus the margin. -/
theorem ccw_sweep_aux_bound (threshold margin : ℚ) (t : ℕ → ℚ) :
    ∀ (fuel : ℕ) (angle : ℚ) (cnt : ℕ),
      (ccw_sweep_aux threshold margin t angle cnt fuel).2 = 0 ∨
      ∃ j : ℕ, 20 ≤ cnt + j ∧
        (ccw_sweep_aux threshold margin t angle cnt fuel).2 =
          angle - j + margin ∧ 0 ≤ angle - (j : ℚ) ∧ threshold < t (cnt + j) := by
  intro fuel
  induction fuel with
  | zero => intro angle cnt; left; rfl
  | succ fuel ih =>
    intro angle cnt
    have hrec : ∀ h0 : 0 ≤ angle,
        (ccw_sweep_aux threshold margin t (angle - 1) (cnt + 1) fuel).2 = 0 ∨
        ∃ j : ℕ, 20 ≤ cnt + j ∧
          (ccw_sweep_aux threshold margin t (angle - 1) (cnt + 1) fuel).2 =
            angle - j + margin ∧ 0 ≤ angle - (j : ℚ) ∧ threshold < t (cnt + j) := by
      intro _
      rcases ih (angle - 1) (cnt + 1) with h | ⟨j, hg, he, hn, ht⟩
      · left; exact h
      · right
        refine ⟨j + 1, by omega, ?_, ?_, ?_⟩
        · rw [he]; push_cast; ring
        · have : angle - 1 - (j : ℚ) = angle - ((j + 1 : ℕ) : ℚ) := by push_cast; ring
          linarith [this ▸ hn]
        · rw [show cnt + (j + 1) = cnt + 1 + j by omega]; exact ht
    rw [ccw_sweep_aux_succ]
    by_cases h0 : 0 ≤ angle
    · rw [if_pos h0]
      by_cases hgrace : cnt + 1 ≤ 20
      · rw [if_pos hgrace]
        exact hrec h0
      · rw [if_neg hgrace]
        by_cases htrip : threshold < t cnt
        · rw [if_pos htrip]
          right
          exact ⟨0, by omega, by push_cast; ring_nf, by simpa using h0, by simpa using htrip⟩
        · rw [if_neg htrip]
          exact hrec h0
    · rw [if_neg h0]; left; rfl

/-- The counter-clockwise sweep never reads the trace inside the grace
window: its entire result is unchanged under any modification of the first
20 samples. -/
theorem ccw_sweep_aux_congr (threshold margin : ℚ) (t t' : ℕ → ℚ)
    (h : ∀ k : ℕ, 20 ≤ k → t k = t' k) :
    ∀ (fuel : ℕ) (angle : ℚ) (cnt : ℕ),
      ccw_sweep_aux threshold margin t angle cnt fuel =
        ccw_sweep_aux threshold margin t' angle cnt fuel := by
  intro fuel
  induction fuel with
  | zero => intro angle cnt; rfl
  | succ fuel ih =>
    intro angle cnt
    rw [ccw_sweep_aux_succ, ccw_sweep_aux_succ]
    by_cases h0 : 0 ≤ angle
    · rw [if_pos h0, if_pos h0]
      by_cases hgrace : cnt + 1 ≤ 20
      · rw [if_pos hgrace, if_pos hgrace, ih (angle - 1) (cnt + 1)]
      · rw [if_neg hgrace, if_neg hgrace, h cnt (by omega), ih (angle - 1) (cnt + 1)]
    · rw [if_neg h0, if_neg h0]

/-- **C3.** The sweep used by `detect_bounds_for_servo` (margin 5, fuel as
deployed): readings in the 20-step grace window are never consulted — the
whole sweep result is insensitive to them — and whenever `min_bound` comes
from a trip, the trip step index is at least 20, i.e. `min_bound` is the
margin added to an angle at least 20 steps below the sweep's start. -/
theorem ccw_sweep_grace_window (threshold start : ℚ) (t t' : ℕ → ℚ)
    (h : ∀ k : ℕ, 20 ≤ k → t k = t' k) :
    ccw_sweep_aux threshold 5 t start 0 sweep_fuel =
      ccw_sweep_aux threshold 5 t' start 0 sweep_fuel ∧
    ((ccw_sweep_aux threshold 5 t start 0 sweep_fuel).2 = 0 ∨
      ∃ j : ℕ, 20 ≤ j ∧
        (ccw_sweep_aux threshold 5 t start 0 sweep_fuel).2 = start - j + 5 ∧
        0 ≤ start - (j : ℚ) ∧ threshold < t j) := by
  refine ⟨ccw_sweep_aux_congr threshold 5 t t' h sweep_fuel start 0, ?_⟩
  rcases ccw_sweep_aux_bound threshold 5 t sweep_fuel start 0 with h0 | ⟨j, hj, he, hn, ht⟩
  · left; exact h0
  · right; exact ⟨j, by omega, he, hn, by simpa using ht⟩

/-- A trace far above any threshold on the whole grace window and silent
afterwards. -/
def grace_spike_trace : ℕ → ℚ := fun k => if k < 20 then 1000 else 0

/-- The everywhere-zero current trace. -/
def zero_trace : ℕ → ℚ := fun _ => 0

/-- Concrete instantiation of `ccw_sweep_grace_window`: a trace reading
1000 mA on all of the first 20 steps gives the same sweep result as the
all-zero trace. -/
theorem ccw_sweep_grace_window_witness :
    ccw_sweep_aux 7 5 grace_spike_trace 90 0 sweep_fuel =
      ccw_sweep_aux 7 5 zero_trace 90 0 sweep_fuel ∧
    ((ccw_sweep_aux 7 5 grace_spike_trace 90 0 sweep_fuel).2 = 0 ∨
      ∃ j : ℕ, 20 ≤ j ∧
        (ccw_sweep_aux 7 5 grace_spike_trace 90 0 sweep_fuel).2 = 90 - j + 5 ∧
        0 ≤ 90 - (j : ℚ) ∧ 7 < grace_spike_trace j) :=
  ccw_sweep_grace_window 7 90 grace_spike_trace zero_trace
    (fun k hk => by
      show (if k < 20 then (1000 : ℚ) else 0) = 0
      rw [if_neg (by omega)])

/-- **C2 (amended).** Before calibration every bounds entry is exactly
`{min: 0, max: 180, center: 90}`.  After `detect_bounds_for_servo` for a
channel, provided no clockwise read taken at a commanded angle below 5°
exceeds the threshold (so the bounce-back cannot push `max_bound` below 0°),
the stored bounds satisfy `0 ≤ min ≤ center ≤ max ≤ 180`, for every starting
angle in `[0, 180]` and every pair of current traces. -/
theorem detect_bounds_invariant (tbl : BoundsTable) (s : Fin 6) (env : CalibEnv)
    (hstart0 : 0 ≤ env.start) (hstart180 : env.start ≤ 180)
    (hsafe : ∀ j : ℕ, env.start + (j : ℚ) < 5 →
      env.cwTrace j ≤ threshold_for_servo s) :
    (∀ i : Fin 6, initial_servo_bounds i = ⟨0, 180, 90⟩) ∧
    (0 ≤ ((detect_bounds_for_servo tbl s env).table s).min ∧
      ((detect_bounds_for_servo tbl s env).table s).min ≤
        ((detect_bounds_for_servo tbl s env).table s).center ∧
      ((detect_bounds_for_servo tbl s env).table s).center ≤
        ((detect_bounds_for_servo tbl s env).table s).max ∧
      ((detect_bounds_for_servo tbl s env).table s).max ≤ 180) := by
  refine ⟨fun _ => rfl, ?_⟩
  have htable : (detect_bounds_for_servo tbl s env).table s =
      ⟨(detect_bounds_for_servo tbl s env).min_bound,
        (detect_bounds_for_servo tbl s env).max_bound,
        (detect_bounds_for_servo tbl s env).center⟩ := by
    show Function.update tbl s _ s = _
    rw [Function.update_same]
    rfl
  set mx := (detect_bounds_for_servo tbl s env).max_bound with hmx
  set mn := (detect_bounds_for_servo tbl s env).min_bound with hmn
  have hcenter : (detect_bounds_for_servo tbl s env).center = (mn + mx) / 2 := rfl
  have hmxdef : mx = (cw_sweep_aux (threshold_for_servo s) 5 env.cwTrace
      env.start 0 sweep_fuel).2 := rfl
  have hmndef : mn = (ccw_sweep_aux (threshold_for_servo s) 5 env.ccwTrace
      mx 0 sweep_fuel).2 := rfl
  have hmx_range : 0 ≤ mx ∧ mx ≤ 180 := by
    rcases cw_sweep_aux_bound (threshold_for_servo s) 5 env.cwTrace sweep_fuel
        env.start 0 with h | ⟨j, he, hle, ht⟩
    · rw [hmxdef, h]; norm_num
    · rw [hmxdef, he]
      have hnotlow : ¬ env.start + (j : ℚ) < 5 := fun hlow =>
        absurd (hsafe j hlow) (not_le.mpr (by simpa using ht))
      constructor <;> [linarith [not_lt.mp hnotlow]; linarith]
  have hmn_range : 0 ≤ mn ∧ mn ≤ mx := by
    rcases ccw_sweep_aux_bound (threshold_for_servo s) 5 env.ccwTrace sweep_fuel
        mx 0 with h | ⟨j, hj, he, hn, _⟩
    · rw [hmndef, h]; exact ⟨le_refl 0, hmx_range.1⟩
    · rw [hmndef, he]
      have hj20 : (20 : ℚ) ≤ (j : ℚ) := by exact_mod_cast (by omega : 20 ≤ j)
      constructor <;> linarith
  rw [htable]
  refine ⟨hmn_range.1, ?_, ?_, hmx_range.2⟩ <;> rw [hcenter] <;>
    [linarith [hmn_range.2]; linarith [hmn_range.2]]

/-- A quiet calibration environment: start angle 90°, all reads zero. -/
def calm_env : CalibEnv := ⟨90, zero_trace, zero_trace⟩

/-- Concrete instantiation of `detect_bounds_invariant`: calibrating
servo 1 from 90° with all-zero traces keeps the invariant. -/
theorem detect_bounds_invariant_witness :
    (∀ i : Fin 6, initial_servo_bounds i = ⟨0, 180, 90⟩) ∧
    (0 ≤ ((detect_bounds_for_servo initial_servo_bounds 1 calm_env).table 1).min ∧
      ((detect_bounds_for_servo initial_servo_bounds 1 calm_env).table 1).min ≤
        ((detect_bounds_for_servo initial_servo_bounds 1 calm_env).table 1).center ∧
      ((detect_bounds_for_servo initial_servo_bounds 1 calm_env).table 1).center ≤
        ((detect_bounds_for_servo initial_servo_bounds 1 calm_env).table 1).max ∧
      ((detect_bounds_for_servo initial_servo_bounds 1 calm_env).table 1).max ≤ 180) :=
  detect_bounds_invariant initial_servo_bounds 1 calm_env
    (by norm_num [calm_env]) (by norm_num [calm_env])
    (by
      intro j hj
      exfalso
      have h0 : (0 : ℚ) ≤ (j : ℚ) := Nat.cast_nonneg j
      rw [show calm_env.start = 90 from rfl] at hj
      linarith)

/-- A trace that reads 9 mA (above every configured threshold) at every
sample. -/
def nine_trace : ℕ → ℚ := fun _ => 9

/-- Calibration environment refuting claim C2 as stated: the servo rests at
0° (inside `[0, 180]`) and the very first clockwise read trips. -/
def bad_env : CalibEnv := ⟨0, nine_trace, nine_trace⟩

/-- Counterexample to C2 as stated: calibrating servo 0 from start angle 0°
with an immediately tripping trace stores `{min: 0, max: -5, center: -5/2}`,
which violates `0 ≤ min ≤ center ≤ max ≤ 180`. -/
theorem detect_bounds_invariant_cex :
    ((detect_bounds_for_servo initial_servo_bounds 0 bad_env).table 0).min = 0 ∧
    ((detect_bounds_for_servo initial_servo_bounds 0 bad_env).table 0).max = -5 ∧
    ((detect_bounds_for_servo initial_servo_bounds 0 bad_env).table 0).center = -5/2 ∧
    ¬ (0 ≤ ((detect_bounds_for_servo initial_servo_bounds 0 bad_env).table 0).min ∧
        ((detect_bounds_for_servo initial_servo_bounds 0 bad_env).table 0).min ≤
          ((detect_bounds_for_servo initial_servo_bounds 0 bad_env).table 0).center ∧
        ((detect_bounds_for_servo initial_servo_bounds 0 bad_env).table 0).center ≤
          ((detect_bounds_for_servo initial_servo_bounds 0 bad_env).table 0).max ∧
        ((detect_bounds_for_servo initial_servo_bounds 0 bad_env).table 0).max ≤ 180) := by
  have hth : threshold_for_servo 0 = 7 := by
    rw [threshold_for_servo, if_neg (by decide), if_neg (by decide)]
  have hcw : cw_sweep_aux 7 5 nine_trace 0 0 sweep_fuel = ([0], -5) := by
    rw [show sweep_fuel = 399 + 1 from rfl, cw_sweep_aux_succ,
      if_pos (by norm_num), if_pos (by norm_num [nine_trace])]
    norm_num
  have hccw : ccw_sweep_aux 7 5 nine_trace (-5) 0 sweep_fuel = ([], 0) := by
    rw [show sweep_fuel = 399 + 1 from rfl, ccw_sweep_aux_succ,
      if_neg (by norm_num)]
  have htable : (detect_bounds_for_servo initial_servo_bounds 0 bad_env).table 0 =
      ⟨0, -5, -5/2⟩ := by
    show Function.update initial_servo_bounds 0 _ 0 = _
    rw [Function.update_same]
    show (⟨(ccw_sweep_aux (threshold_for_servo 0) 5 bad_env.ccwTrace
        (cw_sweep_aux (threshold_for_servo 0) 5 bad_env.cwTrace bad_env.start 0
          sweep_fuel).2 0 sweep_fuel).2,
      (cw_sweep_aux (threshold_for_servo 0) 5 bad_env.cwTrace bad_env.start 0
        sweep_fuel).2, _⟩ : Bounds) = _
    rw [show bad_env.cwTrace = nine_trace from rfl,
      show bad_env.ccwTrace = nine_trace from rfl,
      show bad_env.start = 0 from rfl, hth, hcw]
    show (⟨(ccw_sweep_aux 7 5 nine_trace (-5) 0 sweep_fuel).2, -5,
      ((ccw_sweep_aux 7 5 nine_trace (-5) 0 sweep_fuel).2 + -5) / 2⟩ : Bounds) = _
    rw [hccw]
    norm_num
  rw [htable]
  norm_num

/-- `read_current` (`final_human_bounds.py`, lines 63–71): on a successful
read, the two's-complement 16-bit raw value times 0.001; on any exception,
0.  `none` models a failed read. -/
def read_current (raw : Option ℕ) : ℚ :=
  match raw with
  | none => 0
  | some r => (((if 32767 < r then (r : ℤ) - 65536 else (r : ℤ)) : ℤ) : ℚ) * (1 / 1000)

/-- **C5.** A failed read yields exactly 0, hence can never exceed a
positive threshold, and a sweep step (clockwise or counter-clockwise) whose
read failed always continues to the next step instead of tripping. -/
theorem read_current_failure_no_trip :
    read_current none = 0 ∧
    (∀ threshold : ℚ, 0 < threshold → ¬ threshold < read_current none) ∧
    (∀ (threshold margin : ℚ) (t : ℕ → ℚ) (angle : ℚ) (cnt fuel : ℕ),
      0 < threshold → 0 ≤ angle → t cnt = read_current none →
      ccw_sweep_aux threshold margin t angle cnt (fuel + 1) =
        (angle :: (ccw_sweep_aux threshold margin t (angle - 1) (cnt + 1) fuel).1,
          (ccw_sweep_aux threshold margin t (angle - 1) (cnt + 1) fuel).2)) ∧
    (∀ (threshold margin : ℚ) (t : ℕ → ℚ) (angle : ℚ) (k fuel : ℕ),
      0 < threshold → angle ≤ 180 → t k = read_current none →
      cw_sweep_aux threshold margin t angle k (fuel + 1) =
        (angle :: (cw_sweep_aux threshold margin t (angle + 1) (k + 1) fuel).1,
          (cw_sweep_aux threshold margin t (angle + 1) (k + 1) fuel).2)) := by
  refine ⟨rfl, fun threshold h => not_lt.mpr (le_of_lt h), ?_, ?_⟩
  · intro threshold margin t angle cnt fuel hpos h0 hfail
    have hno : ¬ threshold < t cnt := by
      rw [hfail]; exact not_lt.mpr (le_of_lt hpos)
    rw [ccw_sweep_aux_succ, if_pos h0]
    by_cases hgrace : cnt + 1 ≤ 20
    · rw [if_pos hgrace]
    · rw [if_neg hgrace, if_neg hno]
  · intro threshold margin t angle k fuel hpos h180 hfail
    have hno : ¬ threshold < t k := by
      rw [hfail]; exact not_lt.mpr (le_of_lt hpos)
    rw [cw_sweep_aux_succ, if_pos h180, if_neg hno]

/-- A trace every read of which failed. -/
def failed_read_trace : ℕ → ℚ := fun _ => read_current none

/-- Concrete instantiation of `read_current_failure_no_trip` at threshold
7 mA, margin 5, angle 90°, a failed read, and 10 units of remaining fuel. -/
theorem read_current_failure_no_trip_witness :
    ccw_sweep_aux 7 5 failed_read_trace 90 0 (10 + 1) =
      (90 :: (ccw_sweep_aux 7 5 failed_read_trace 89 1 10).1,
        (ccw_sweep_aux 7 5 failed_read_trace 89 1 10).2) := by
  have h := read_current_failure_no_trip.2.2.1 7 5 failed_read_trace 90 0 10
    (by norm_num) (by norm_num) rfl
  rw [h]
  norm_num

/-! ## Simultaneous multi-servo moves

`move_multiple_servos_simultaneously` (`final_human_bounds.py`,
lines 238–249) starts one `threading.Thread` per `(servo, angle)` pair and
then calls `thread.join(timeout=0.1)` on each thread **in sequence**.  The
commands issued are modelled as the list of clamped writes; the timing of
the join loop is modelled by `join_all_time`: all threads start at time 0,
thread `i` finishes at absolute time `completions[i]`, and a `join` entered
at time `t` on a thread finishing at `c` returns at `min (max t c)
(t + timeout)` — immediately if the thread is already done, when it
finishes if that is within the timeout, and at `t + timeout` otherwise. -/

/-- `move_servo_thread` (`final_human_bounds.py`, lines 231–236): the write
issued by one worker thread — the clamp of the requested angle. -/
def move_servo_thread (tbl : BoundsTable) (servo_num : Fin 6) (angle : ℚ) :
    Fin 6 × ℚ :=
  (servo_num, constrained_angle tbl servo_num angle)

/-- The set of writes dispatched by `move_multiple_servos_simultaneously`
(`final_human_bounds.py`, lines 242–245): one per pair. -/
def move_multiple_servos_simultaneously (tbl : BoundsTable)
    (servo_angle_pairs : List (Fin 6 × ℚ)) : List (Fin 6 × ℚ) :=
  servo_angle_pairs.map (fun p => move_servo_thread tbl p.1 p.2)

/-- Return time of the sequential `thread.join(timeout=0.1)` loop
(`final_human_bounds.py`, lines 247–249) under the timing model above. -/
def join_all_time (timeout : ℚ) (completions : List ℚ) : ℚ :=
  completions.foldl (fun t c => min (max t c) (t + timeout)) 0

/-- Counterexample to C6 as stated: with two threads that have not finished
by 1000 s, the sequential join loop returns at 0.2 s — the per-thread
timeouts accumulate, so the call is *not* bounded by a single 100 ms
deadline. -/
theorem move_many_deadline_cex :
    join_all_time (1/10) [1000, 1000] = 1/5 ∧
    ¬ join_all_time (1/10) [1000, 1000] ≤ 1/10 := by
  have h : join_all_time (1/10) [1000, 1000] = 1/5 := by
    show min (max (min (max (0 : ℚ) 1000) (0 + 1/10)) 1000)
      (min (max (0 : ℚ) 1000) (0 + 1/10) + 1/10) = 1/5
    rw [max_eq_right (by norm_num), min_eq_right (by norm_num)]
    rw [max_eq_right (by norm_num), min_eq_right (by norm_num)]
    norm_num
  exact ⟨h, by rw [h]; norm_num⟩

/-- **C6 (amended).** `move_multiple_servos_simultaneously` dispatches
exactly one clamped write per `(channel, angle)` pair; the join loop
returns within 10 ms whenever every thread completes within 10 ms (so an
all-fast move does not wait out the deadline), and in general within
100 ms times the number of threads (a per-thread deadline, not a global
one).  No deadline expiry is surfaced: the model returns normally in every
case. -/
theorem move_many_amended :
    (∀ tbl pairs, move_multiple_servos_simultaneously tbl pairs =
      pairs.map (fun p => (p.1, constrained_angle tbl p.1 p.2))) ∧
    (∀ completions : List ℚ, (∀ c ∈ completions, c ≤ 1/100) →
      join_all_time (1/10) completions ≤ 1/100) ∧
    (∀ completions : List ℚ,
      join_all_time (1/10) completions ≤ (completions.length : ℚ) * (1/10)) := by
  have hstep : ∀ (d t c : ℚ), t ≤ d → c ≤ d →
      min (max t c) (t + 1/10) ≤ d := fun d t c ht hc =>
    le_trans (min_le_left _ _) (max_le ht hc)
  have hbound : ∀ (completions : List ℚ) (d : ℚ), (∀ c ∈ completions, c ≤ d) →
      ∀ t : ℚ, t ≤ d →
      completions.foldl (fun t c => min (max t c) (t + 1/10)) t ≤ d := by
    intro completions
    induction completions with
    | nil => intro d _ t ht; exact ht
    | cons c cs ih =>
      intro d h t ht
      rw [List.foldl_cons]
      exact ih d (fun x hx => h x (List.mem_cons_of_mem c hx)) _
        (hstep d t c ht (h c (List.mem_cons_self c cs)))
  have hlen : ∀ (completions : List ℚ) (t : ℚ),
      completions.foldl (fun t c => min (max t c) (t + 1/10)) t ≤
        t + (completions.length : ℚ) * (1/10) := by
    intro completions
    induction completions with
    | nil => intro t; simp
    | cons c cs ih =>
      intro t
      rw [List.foldl_cons]
      calc cs.foldl (fun t c => min (max t c) (t + 1/10))
            (min (max t c) (t + 1/10)) ≤
          min (max t c) (t + 1/10) + (cs.length : ℚ) * (1/10) := ih _
        _ ≤ (t + 1/10) + (cs.length : ℚ) * (1/10) :=
            add_le_add_right (min_le_right _ _) _
        _ = t + ((c :: cs).length : ℚ) * (1/10) := by
            rw [List.length_cons]; push_cast; ring
  exact ⟨fun tbl pairs => rfl,
    fun completions h => hbound completions (1/100) h 0 (by norm_num),
    fun completions => by simpa using hlen completions 0⟩

/-- Concrete instantiation of `move_many_amended`: two threads finishing at
10 ms and 5 ms make the join loop return within 10 ms, and within the
2-thread worst-case bound. -/
theorem move_many_amended_witness :
    join_all_time (1/10) [1/100, 1/200] ≤ 1/100 ∧
    join_all_time (1/10) [1/100, 1/200] ≤
      (([(1 : ℚ)/100, 1/200].length : ℕ) : ℚ) * (1/10) :=
  ⟨move_many_amended.2.1 [1/100, 1/200]
      (by
        intro c hc
        rcases List.mem_cons.mp hc with h | h
        · rw [h]
        · rw [List.mem_singleton.mp h]; norm_num),
    move_many_amended.2.2 [1/100, 1/200]⟩

/-! ## The sample buffer -/

/-- `deque(maxlen=…)` append semantics: `current_data.append(x)`
(`final_human_bounds.py`, lines 22 and 76) adds `x` at the right end and
evicts from the left end whenever the buffer would exceed `maxlen`. -/
def deque_append (maxlen : ℕ) (buf : List ℚ) (x : ℚ) : List ℚ :=
  (buf ++ [x]).drop ((buf.length + 1) - maxlen)

/-- The contents of `current_data` (capacity 1000) after `data_collector`
(`final_human_bounds.py`, lines 73–78) has appended the given readings, in
order, starting from the empty buffer. -/
def data_collector_run (readings : List ℚ) : List ℚ :=
  readings.foldl (deque_append 1000) []

/-- Folding deque appends over a start buffer within capacity keeps exactly
the last `cap` elements of the concatenated stream. -/
theorem foldl_deque_append (cap : ℕ) :
    ∀ (xs b : List ℚ), b.length ≤ cap →
      xs.foldl (deque_append cap) b = (b ++ xs).drop ((b ++ xs).length - cap) := by
  intro xs
  induction xs with
  | nil =>
    intro b hb
    rw [List.append_nil, List.foldl_nil, Nat.sub_eq_zero_of_le hb, List.drop_zero]
  | cons x xs ih =>
    intro b hb
    rw [List.foldl_cons, ih (deque_append cap b x)
      (by
        simp only [deque_append, List.length_drop, List.length_append,
          List.length_singleton]
        omega)]
    show ((b ++ [x]).drop ((b.length + 1) - cap) ++ xs).drop _ = _
    rw [← List.drop_append_of_le_length
      (by
        simp only [List.length_append, List.length_singleton]
        omega : (b.length + 1) - cap ≤ (b ++ [x]).length)]
    rw [List.drop_drop]
    have harr : (b ++ [x]) ++ xs = b ++ x :: xs := by
      rw [List.append_assoc, List.singleton_append]
    rw [harr]
    congr 1
    simp only [deque_append, List.length_drop, List.length_append,
      List.length_cons, List.length_singleton, List.length_nil]
    omega

/-- **C7.** The sample buffer never holds more than its capacity 1000, and
after appending 1001 samples it holds exactly the most recent 1000, in
arrival order (the oldest evicted). -/
theorem sample_buffer_capacity (readings : List ℚ) :
    (data_collector_run readings).length ≤ 1000 ∧
    (readings.length = 1001 → data_collector_run readings = readings.drop 1) := by
  have h : data_collector_run readings =
      readings.drop (readings.length - 1000) := by
    have := foldl_deque_append 1000 readings [] (by simp)
    simpa [data_collector_run] using this
  constructor
  · rw [h, List.length_drop]
    omega
  · intro hlen
    rw [h, hlen]

/-- 1001 pairwise-distinct samples `0, 1, …, 1000` in arrival order. -/
def ramp_samples : List ℚ := (List.range 1001).map (fun n : ℕ => (n : ℚ))

/-- Concrete instantiation of `sample_buffer_capacity` on 1001 distinct
samples: the buffer keeps exactly the last 1000 in order. -/
theorem sample_buffer_capacity_witness :
    (data_collector_run ramp_samples).length ≤ 1000 ∧
    data_collector_run ramp_samples = ramp_samples.drop 1 :=
  ⟨(sample_buffer_capacity ramp_samples).1,
    (sample_buffer_capacity ramp_samples).2
      (by rw [ramp_samples, List.length_map, List.length_range])⟩

/-! ## Multi-channel calibration orchestration -/

/-- `move_servo_to_center` (`final_human_bounds.py`, lines 173–178): the
write it issues. -/
def move_servo_to_center (tbl : BoundsTable) (servo_num : Fin 6) : Fin 6 × ℚ :=
  (servo_num, (tbl servo_num).center)

/-- The calibration order of `detect_all_bounds`
(`final_human_bounds.py`, line 187): `servo_order = [0, 1, 4, 5, 3, 2]`. -/
def servo_order : List (Fin 6) := [0, 1, 4, 5, 3, 2]

/-- `detect_all_bounds` (`final_human_bounds.py`, lines 180–215): calibrate
each servo in `servo_order`, threading the bounds table; immediately after
servo 1 finishes, move servo 0 to its center, and immediately after servo 5
finishes, move servo 4 to its center.  Returns the final table and all
servo writes in program order. -/
def detect_all_bounds (env : Fin 6 → CalibEnv) :
    BoundsTable × List (Fin 6 × ℚ) :=
  servo_order.foldl
    (fun acc servo_num =>
      let r := detect_bounds_for_servo acc.1 servo_num (env servo_num)
      let extra :=
        if servo_num = 1 then [move_servo_to_center r.table 0]
        else if servo_num = 5 then [move_servo_to_center r.table 4]
        else []
      (r.table, acc.2 ++ r.writes ++ extra))
    (initial_servo_bounds, [])

/-- Step 1 of the calibration sequence: servo 0 from the default table. -/
def calib_r0 (env : Fin 6 → CalibEnv) : CalibResult :=
  detect_bounds_for_servo initial_servo_bounds 0 (env 0)

/-- Step 2 of the calibration sequence: servo 1. -/
def calib_r1 (env : Fin 6 → CalibEnv) : CalibResult :=
  detect_bounds_for_servo (calib_r0 env).table 1 (env 1)

/-- Step 3 of the calibration sequence: servo 4. -/
def calib_r4 (env : Fin 6 → CalibEnv) : CalibResult :=
  detect_bounds_for_servo (calib_r1 env).table 4 (env 4)

/-- Step 4 of the calibration sequence: servo 5. -/
def calib_r5 (env : Fin 6 → CalibEnv) : CalibResult :=
  detect_bounds_for_servo (calib_r4 env).table 5 (env 5)

/-- Step 5 of the calibration sequence: servo 3. -/
def calib_r3 (env : Fin 6 → CalibEnv) : CalibResult :=
  detect_bounds_for_servo (calib_r5 env).table 3 (env 3)

/-- Step 6 of the calibration sequence: servo 2. -/
def calib_r2 (env : Fin 6 → CalibEnv) : CalibResult :=
  detect_bounds_for_servo (calib_r3 env).table 2 (env 2)

/-- A single-servo calibration's last write is its resting position:
`max_bound` for servo 0, `min_bound` for servo 4, the center otherwise. -/
theorem detect_writes_last (tbl : BoundsTable) (s : Fin 6) (env : CalibEnv) :
    (detect_bounds_for_servo tbl s env).writes.getLast? = some (s,
      if s = 0 then (detect_bounds_for_servo tbl s env).max_bound
      else if s = 4 then (detect_bounds_for_servo tbl s env).min_bound
      else (detect_bounds_for_servo tbl s env).center) := by
  have hw : (detect_bounds_for_servo tbl s env).writes =
      ((cw_sweep_aux (threshold_for_servo s) 5 env.cwTrace env.start 0
        sweep_fuel).1.map (fun a => (s, a))) ++
      ((ccw_sweep_aux (threshold_for_servo s) 5 env.ccwTrace
        (cw_sweep_aux (threshold_for_servo s) 5 env.cwTrace env.start 0
          sweep_fuel).2 0 sweep_fuel).1.map (fun a => (s, a))) ++
      [(s, if s = 0 then (detect_bounds_for_servo tbl s env).max_bound
           else if s = 4 then (detect_bounds_for_servo tbl s env).min_bound
           else (detect_bounds_for_servo tbl s env).center)] := rfl
  rw [hw]
  exact List.getLast?_concat _

/-- **C8.** In `detect_all_bounds`, servo 0 rests at its own discovered
maximum and servo 4 at its own minimum right after their own calibration,
every other servo moves to its center immediately (last write of each
calibration block), and the write immediately following servo 1's block
is servo 0 to its recorded center, the write immediately following
servo 5's block is servo 4 to its recorded center. -/
theorem detect_all_bounds_pairing (env : Fin 6 → CalibEnv) :
    (detect_all_bounds env).2 =
      (calib_r0 env).writes ++ (calib_r1 env).writes ++
        [(0, (calib_r0 env).center)] ++ (calib_r4 env).writes ++
        (calib_r5 env).writes ++ [(4, (calib_r4 env).center)] ++
        (calib_r3 env).writes ++ (calib_r2 env).writes ∧
    (detect_all_bounds env).1 = (calib_r2 env).table ∧
    (calib_r0 env).writes.getLast? = some (0, (calib_r0 env).max_bound) ∧
    (calib_r4 env).writes.getLast? = some (4, (calib_r4 env).min_bound) ∧
    (calib_r1 env).writes.getLast? = some (1, (calib_r1 env).center) ∧
    (calib_r5 env).writes.getLast? = some (5, (calib_r5 env).center) ∧
    (calib_r3 env).writes.getLast? = some (3, (calib_r3 env).center) ∧
    (calib_r2 env).writes.getLast? = some (2, (calib_r2 env).center) := by
  have ht1 : (calib_r1 env).table 0 = (calib_r0 env).table 0 := by
    show Function.update (calib_r0 env).table 1
      (Bounds.mk (calib_r1 env).min_bound (calib_r1 env).max_bound
        (calib_r1 env).center) 0 = (calib_r0 env).table 0
    exact Function.update_noteq (by decide) _ _
  have ht0 : (calib_r0 env).table 0 =
      ⟨(calib_r0 env).min_bound, (calib_r0 env).max_bound, (calib_r0 env).center⟩ := by
    show Function.update initial_servo_bounds 0
      (Bounds.mk (calib_r0 env).min_bound (calib_r0 env).max_bound
        (calib_r0 env).center) 0 = _
    exact Function.update_same _ _ _
  have hc0 : move_servo_to_center (calib_r1 env).table 0 =
      (0, (calib_r0 env).center) := by
    show (0, ((calib_r1 env).table 0).center) = _
    rw [ht1, ht0]
  have ht5 : (calib_r5 env).table 4 = (calib_r4 env).table 4 := by
    show Function.update (calib_r4 env).table 5
      (Bounds.mk (calib_r5 env).min_bound (calib_r5 env).max_bound
        (calib_r5 env).center) 4 = (calib_r4 env).table 4
    exact Function.update_noteq (by decide) _ _
  have ht4 : (calib_r4 env).table 4 =
      ⟨(calib_r4 env).min_bound, (calib_r4 env).max_bound, (calib_r4 env).center⟩ := by
    show Function.update (calib_r1 env).table 4
      (Bounds.mk (calib_r4 env).min_bound (calib_r4 env).max_bound
        (calib_r4 env).center) 4 = _
    exact Function.update_same _ _ _
  have hc4 : move_servo_to_center (calib_r5 env).table 4 =
      (4, (calib_r4 env).center) := by
    show (4, ((calib_r5 env).table 4).center) = _
    rw [ht5, ht4]
  have hunfold : (detect_all_bounds env).2 =
      ((((([] ++ (calib_r0 env).writes ++ []) ++ (calib_r1 env).writes ++
          [move_servo_to_center (calib_r1 env).table 0]) ++
        (calib_r4 env).writes ++ []) ++ (calib_r5 env).writes ++
          [move_servo_to_center (calib_r5 env).table 4]) ++
        (calib_r3 env).writes ++ []) ++ (calib_r2 env).writes ++ [] := rfl
  refine ⟨?_, rfl, ?_, ?_, ?_, ?_, ?_, ?_⟩
  · rw [hunfold, hc0, hc4]
    simp only [List.nil_append, List.append_nil, List.append_assoc]
  · have h := detect_writes_last initial_servo_bounds 0 (env 0)
    rw [if_pos rfl] at h
    exact h
  · have h := detect_writes_last (calib_r1 env).table 4 (env 4)
    rw [if_neg (by decide), if_pos rfl] at h
    exact h
  · have h := detect_writes_last (calib_r0 env).table 1 (env 1)
    rw [if_neg (by decide), if_neg (by decide)] at h
    exact h
  · have h := detect_writes_last (calib_r4 env).table 5 (env 5)
    rw [if_neg (by decide), if_neg (by decide)] at h
    exact h
  · have h := detect_writes_last (calib_r5 env).table 3 (env 3)
    rw [if_neg (by decide), if_neg (by decide)] at h
    exact h
  · have h := detect_writes_last (calib_r3 env).table 2 (env 2)
    rw [if_neg (by decide), if_neg (by decide)] at h
    exact h

/-! ## The gaze behaviour engine (`combined_code.py`, `HumanEyeController`)

Randomness is modelled by a stream `u : ℕ → ℚ` of draws in `[0, 1)`
consumed in program order (index threaded through every function):
`random.random()` is one draw, `random.uniform(a, b)` is `a + (b - a)`
times one draw, and `random.choices` with relative weights is one draw
compared against the cumulative weights.  Wall-clock readings
(`time.time()`) are an explicit list of tick times.  The two transcendental
functions the controller uses — `math.sqrt` in the saccade-distance
computation and the raised-cosine easing `0.5 * (1 - cos(progress * π))` —
are not rational-valued, so they are passed in as fixed function
parameters `sqrtFn` and `easeFn`; both are pure, so fixing them preserves
the determinism question, which is about the random stream and tick
times only. -/

/-- `min_angles = [60.0, 30.0, 70.0, 50.0, 40.0, 30.0]`
(`combined_code.py`, line 132). -/
def min_angles : List ℚ := [60, 30, 70, 50, 40, 30]

/-- `max_angles = [130.0, 150.0, 130.0, 130.0, 120.0, 140.0]`
(`combined_code.py`, line 133). -/
def max_angles : List ℚ := [130, 150, 130, 130, 120, 140]

/-- `random.uniform(a, b)` applied to one draw `r`. -/
def uniform (a b r : ℚ) : ℚ := a + (b - a) * r

/-- The mutable fields of `HumanEyeController` used by the behaviour loop
(`combined_code.py`, lines 136–155). -/
structure EyeState where
  up_down : ℚ
  left_right : ℚ
  target_up_down : ℚ
  target_left_right : ℚ
  in_saccade : Bool
  saccade_start_time : ℚ
  saccade_duration : ℚ
  last_blink_time : ℚ
  last_movement_time : ℚ
  blink_interval : ℚ
deriving DecidableEq

/-- `HumanEyeController.__init__` (`combined_code.py`, lines 136–155):
gaze and targets at (90, 90), no saccade, `blink_interval =
random.uniform(1.5, 6.0)` from one draw `r`, both timers at `now`. -/
def init_eye_state (now r : ℚ) : EyeState :=
  { up_down := 90, left_right := 90, target_up_down := 90,
    target_left_right := 90, in_saccade := false, saccade_start_time := 0,
    saccade_duration := 0, last_blink_time := now, last_movement_time := now,
    blink_interval := uniform (3/2) 6 r }

/-- `generate_natural_gaze_target` (`combined_code.py`, lines 172–201):
one draw selects the movement archetype against the cumulative weights
0.4, 0.65, 0.85, 0.95 of `[0.4, 0.25, 0.2, 0.1, 0.05]`, then two uniform
draws produce `(up_down, left_right)` — except `fixation_return`, which
returns `(90, 90)` with no further draw. -/
def generate_natural_gaze_target (u : ℕ → ℚ) (i : ℕ) : (ℚ × ℚ) × ℕ :=
  let c := u i
  if c < 2/5 then
    ((uniform 85 95 (u (i + 1)), uniform 85 95 (u (i + 2))), i + 3)
  else if c < 13/20 then
    ((uniform 88 92 (u (i + 1)),
      uniform (min_angles.getD 3 0 + 10) (max_angles.getD 3 0 - 10) (u (i + 2))),
      i + 3)
  else if c < 17/20 then
    ((uniform (min_angles.getD 2 0 + 5) (max_angles.getD 2 0 - 5) (u (i + 1)),
      uniform 85 95 (u (i + 2))), i + 3)
  else if c < 19/20 then
    ((uniform (min_angles.getD 2 0 + 10) (max_angles.getD 2 0 - 10) (u (i + 1)),
      uniform (min_angles.getD 3 0 + 10) (max_angles.getD 3 0 - 10) (u (i + 2))),
      i + 3)
  else ((90, 90), i + 1)

/-- `execute_saccade` (`combined_code.py`, lines 203–213): mark the saccade
active from `now`, set the target, and derive the duration
`0.1 + (distance / 100) * 0.3` from the Euclidean distance to the target. -/
def execute_saccade (sqrtFn : ℚ → ℚ) (st : EyeState) (now tud tlr : ℚ) :
    EyeState :=
  let distance := sqrtFn ((tud - st.up_down)^2 + (tlr - st.left_right)^2)
  { st with
    in_saccade := true
    saccade_start_time := now
    saccade_duration := 1/10 + (distance / 100) * (3/10)
    target_up_down := tud
    target_left_right := tlr }

/-- `should_blink` (`combined_code.py`, lines 299–310): when the elapsed
time since the last blink reaches `blink_interval`, redraw the interval
from `uniform(1.2, 7.0)` and decide double (`some true`, probability 0.15)
or single (`some false`); otherwise `none` with no draw. -/
def should_blink (u : ℕ → ℚ) (i : ℕ) (st : EyeState) (now : ℚ) :
    Option Bool × EyeState × ℕ :=
  if st.blink_interval ≤ now - st.last_blink_time then
    let st' := { st with blink_interval := uniform (6/5) 7 (u i) }
    if u (i + 1) < 3/20 then (some true, st', i + 2)
    else (some false, st', i + 2)
  else (none, st, i)

/-- `should_move_gaze` (`combined_code.py`, lines 312–320): one uniform
draw in `[0.8, 4.0]`, doubled with probability 0.05 (second draw), fires
when the elapsed time since the last movement reaches it. -/
def should_move_gaze (u : ℕ → ℚ) (i : ℕ) (st : EyeState) (now : ℚ) :
    Bool × ℕ :=
  let base := uniform (4/5) 4 (u i)
  let base := if u (i + 1) < 1/20 then base * 2 else base
  (decide (base ≤ now - st.last_movement_time), i + 2)

/-- `update_eye_position` (`combined_code.py`, lines 215–252): during a
saccade, either snap to the target when the duration has elapsed or move a
0.3 fraction of the eased remaining gap; when not in a saccade (including
the very tick a saccade completes) add two micro-movement draws in
`[-0.5, 0.5]`; clamp to `min_angles`/`max_angles` of channels 2 and 3 and
write both servos. -/
def update_eye_position (easeFn : ℚ → ℚ) (u : ℕ → ℚ) (i : ℕ) (st : EyeState)
    (now : ℚ) : EyeState × List (Fin 6 × ℚ) × ℕ :=
  let moved :=
    if st.in_saccade then
      let elapsed := now - st.saccade_start_time
      if st.saccade_duration ≤ elapsed then
        ({ st with
          in_saccade := false
          up_down := st.target_up_down
          left_right := st.target_left_right }, i)
      else
        let progress := elapsed / st.saccade_duration
        let eased := easeFn progress
        ({ st with
          up_down := st.up_down + (st.target_up_down - st.up_down) * eased * (3/10)
          left_right :=
            st.left_right + (st.target_left_right - st.left_right) * eased * (3/10) },
          i)
    else (st, i)
  let st1 := moved.1
  let micro :=
    if st1.in_saccade then (st1, moved.2)
    else
      ({ st1 with
        up_down := st1.up_down + uniform (-(1/2)) (1/2) (u moved.2)
        left_right := st1.left_right + uniform (-(1/2)) (1/2) (u (moved.2 + 1)) },
        moved.2 + 2)
  let st2 := micro.1
  let ud := max (min_angles.getD 2 0) (min st2.up_down (max_angles.getD 2 0))
  let lr := max (min_angles.getD 3 0) (min st2.left_right (max_angles.getD 3 0))
  ({ st2 with up_down := ud, left_right := lr }, [(2, ud), (3, lr)], micro.2)

/-- What one tick of `run_human_like_behavior` reports: a blink decision
(`none` / single / double), the duration drawn for a single blink, and the
gaze target and saccade duration when a saccade starts. -/
structure TickOutput where
  blink : Option Bool
  blink_duration : Option ℚ
  target : Option (ℚ × ℚ)
  saccade_duration : Option ℚ
deriving DecidableEq

/-- One iteration of the `run_human_like_behavior` loop
(`combined_code.py`, lines 337–358): blink check (a single blink draws its
duration from `uniform(0.12, 0.18)` and a completed blink resets
`last_blink_time`), then the gaze check — when `should_move_gaze` fires
outside a saccade, generate a target and start the saccade, resetting
`last_movement_time` — then `update_eye_position`. -/
def engine_tick (sqrtFn easeFn : ℚ → ℚ) (u : ℕ → ℚ) (st : EyeState)
    (now : ℚ) (i : ℕ) : TickOutput × EyeState × List (Fin 6 × ℚ) × ℕ :=
  let bl := should_blink u i st now
  let blinkDur : Option ℚ × ℕ :=
    match bl.1 with
    | some false => (some (uniform (3/25) (9/50) (u bl.2.2)), bl.2.2 + 1)
    | _ => (none, bl.2.2)
  let st1 :=
    match bl.1 with
    | none => bl.2.1
    | some _ => { bl.2.1 with last_blink_time := now }
  let mg := should_move_gaze u blinkDur.2 st1 now
  if mg.1 ∧ ¬ st1.in_saccade then
    let tg := generate_natural_gaze_target u mg.2
    let st2 := { execute_saccade sqrtFn st1 now tg.1.1 tg.1.2 with
      last_movement_time := now }
    let upd := update_eye_position easeFn u tg.2 st2 now
    ({ blink := bl.1
       blink_duration := blinkDur.1
       target := some tg.1
       saccade_duration := some st2.saccade_duration },
      upd.1, upd.2.1, upd.2.2)
  else
    let upd := update_eye_position easeFn u mg.2 st1 now
    ({ blink := bl.1
       blink_duration := blinkDur.1
       target := none
       saccade_duration := none }, upd.1, upd.2.1, upd.2.2)

/-- The behaviour loop over a list of tick times, collecting every tick's
output and servo writes. -/
def engine_run (sqrtFn easeFn : ℚ → ℚ) (u : ℕ → ℚ) :
    List ℚ → EyeState → ℕ →
      List TickOutput × EyeState × List (Fin 6 × ℚ) × ℕ
  | [], st, i => ([], st, [], i)
  | now :: ticks, st, i =>
    let t := engine_tick sqrtFn easeFn u st now i
    let rest := engine_run sqrtFn easeFn u ticks t.2.1 t.2.2.2
    (t.1 :: rest.1, rest.2.1, t.2.2.1 ++ rest.2.2.1, rest.2.2.2)

/-- **C9.** With the transcendental helpers fixed, the whole behaviour run
— every tick's blink decision, drawn blink duration, gaze target, saccade
duration, and all servo writes and state evolution — depends only on the
random stream (pointwise), the tick times, and the starting state: two
runs over pointwise-equal random streams coincide completely. -/
theorem gaze_engine_deterministic (sqrtFn easeFn : ℚ → ℚ) (u1 u2 : ℕ → ℚ)
    (ticks : List ℚ) (st : EyeState) (i : ℕ) (h : ∀ k, u1 k = u2 k) :
    engine_run sqrtFn easeFn u1 ticks st i =
      engine_run sqrtFn easeFn u2 ticks st i := by
  rw [funext h]

/-- A constant random stream drawing 1/2. -/
def half_stream : ℕ → ℚ := fun _ => 1/2

/-- The same stream written differently (2/4). -/
def half_stream_v2 : ℕ → ℚ := fun _ => 2/4

/-- Concrete instantiation of `gaze_engine_deterministic`: two ticks from
the freshly initialised controller under two pointwise-equal streams. -/
theorem gaze_engine_deterministic_witness :
    engine_run (fun q => q) (fun q => q) half_stream [0, 1/50]
        (init_eye_state 0 (1/2)) 0 =
      engine_run (fun q => q) (fun q => q) half_stream_v2 [0, 1/50]
        (init_eye_state 0 (1/2)) 0 :=
  gaze_engine_deterministic (fun q => q) (fun q => q) half_stream
    half_stream_v2 [0, 1/50] (init_eye_state 0 (1/2)) 0
    (fun k => by
      show (1 : ℚ)/2 = 2/4
      norm_num)

/-! ## High-level motion commands and their calibration guards

`final_human_bounds.py` keeps four global flags; the ones the motion
commands read or write are collected in `SysState`.  Each command returns
its final state and the servo writes it issued.  `eyes_blink` and the four
look commands set `command_in_progress = True` on entry and `False` on
every exit path, so their net effect on that flag is `False`; the model
records the final state. -/

/-- The global flags and bounds table of `final_human_bounds.py`
(lines 36 and 44–47) as seen by the motion commands. -/
structure SysState where
  bounds_detected : Bool
  command_in_progress : Bool
  human_eyes_active : Bool
  table : BoundsTable

/-- `eyes_neutral` (`final_human_bounds.py`, lines 251–260): every servo to
its center, through the clamped simultaneous move. -/
def eyes_neutral_writes (tbl : BoundsTable) : List (Fin 6 × ℚ) :=
  move_multiple_servos_simultaneously tbl
    ((List.finRange 6).map (fun s => (s, (tbl s).center)))

/-- The writes of a (bounds-detected) blink
(`final_human_bounds.py`, lines 272–288): close the four eyelid servos —
0 to max, 1 to min, 4 to min, 5 to max — then reopen via `eyes_neutral`. -/
def eyes_blink_writes (tbl : BoundsTable) : List (Fin 6 × ℚ) :=
  move_multiple_servos_simultaneously tbl
    [(0, (tbl 0).max), (1, (tbl 1).min), (4, (tbl 4).min), (5, (tbl 5).max)] ++
  eyes_neutral_writes tbl

/-- `eyes_blink` (`final_human_bounds.py`, lines 262–290): refuse before
bounds detection (no writes), otherwise blink. -/
def eyes_blink (st : SysState) : SysState × List (Fin 6 × ℚ) :=
  if st.bounds_detected = false then
    ({ st with command_in_progress := false }, [])
  else
    ({ st with command_in_progress := false }, eyes_blink_writes st.table)

/-- `eyes_look_up` (`final_human_bounds.py`, lines 292–312): guard, then
servo 2 to its max and back to neutral. -/
def eyes_look_up (st : SysState) : SysState × List (Fin 6 × ℚ) :=
  if st.bounds_detected = false then
    ({ st with command_in_progress := false }, [])
  else
    ({ st with command_in_progress := false },
      (move_servo_safe st.table 2 ((st.table 2).max)).1 ++
        eyes_neutral_writes st.table)

/-- `eyes_look_down` (`final_human_bounds.py`, lines 314–334): guard, then
servo 2 to its min and back to neutral. -/
def eyes_look_down (st : SysState) : SysState × List (Fin 6 × ℚ) :=
  if st.bounds_detected = false then
    ({ st with command_in_progress := false }, [])
  else
    ({ st with command_in_progress := false },
      (move_servo_safe st.table 2 ((st.table 2).min)).1 ++
        eyes_neutral_writes st.table)

/-- `eyes_look_left` (`final_human_bounds.py`, lines 336–356): guard, then
servo 3 to its max and back to neutral. -/
def eyes_look_left (st : SysState) : SysState × List (Fin 6 × ℚ) :=
  if st.bounds_detected = false then
    ({ st with command_in_progress := false }, [])
  else
    ({ st with command_in_progress := false },
      (move_servo_safe st.table 3 ((st.table 3).max)).1 ++
        eyes_neutral_writes st.table)

/-- `eyes_look_right` (`final_human_bounds.py`, lines 358–378): guard, then
servo 3 to its min and back to neutral. -/
def eyes_look_right (st : SysState) : SysState × List (Fin 6 × ℚ) :=
  if st.bounds_detected = false then
    ({ st with command_in_progress := false }, [])
  else
    ({ st with command_in_progress := false },
      (move_servo_safe st.table 3 ((st.table 3).min)).1 ++
        eyes_neutral_writes st.table)

/-- One pass of the `human_eyes` `while` loop body
(`final_human_bounds.py`, lines 400–463) iterated `fuel` times.  Arguments
after the fuel: the last-blink time, last-gaze-change time, current gaze
`(vertical, horizontal)`, the next random-draw index, and the iteration
counter timing the loop through `ts`.  Each iteration draws
`uniform(2, 5)` for the blink check (plus the double-blink draw when it
fires), `uniform(3, 8)` for the gaze check (plus two draws for the new
gaze and a 20-step smooth move when it fires), and one micro-movement draw
(plus two `uniform(-5, 5)` draws when it fires). -/
def human_eyes_loop (tbl : BoundsTable) (u ts : ℕ → ℚ) :
    ℕ → ℚ → ℚ → ℚ × ℚ → ℕ → ℕ → List (Fin 6 × ℚ)
  | 0, _, _, _, _, _ => []
  | fuel + 1, lastBlink, lastGaze, gaze, i, iter =>
    let now := ts iter
    let blinkRes : List (Fin 6 × ℚ) × ℚ × ℕ :=
      if uniform 2 5 (u i) < now - lastBlink then
        if u (i + 1) < 1/10 then
          (eyes_blink_writes tbl ++ eyes_blink_writes tbl, now, i + 2)
        else (eyes_blink_writes tbl, now, i + 2)
      else ([], lastBlink, i + 1)
    let i1 := blinkRes.2.2
    let gazeRes : List (Fin 6 × ℚ) × ℚ × (ℚ × ℚ) × ℕ :=
      if uniform 3 8 (u i1) < now - lastGaze then
        let v_range := (tbl 2).max - (tbl 2).min
        let h_range := (tbl 3).max - (tbl 3).min
        let new_v := (tbl 2).min + (3/20) * v_range + u (i1 + 1) * (7/10) * v_range
        let new_h := (tbl 3).min + (3/20) * h_range + u (i1 + 2) * (7/10) * h_range
        (((List.range 20).map (fun k =>
            (move_servo_safe tbl 2
              (gaze.1 + (new_v - gaze.1) * ((k : ℚ) + 1) / 20)).1 ++
            (move_servo_safe tbl 3
              (gaze.2 + (new_h - gaze.2) * ((k : ℚ) + 1) / 20)).1)).flatten,
          now, (new_v, new_h), i1 + 3)
      else ([], lastGaze, gaze, i1 + 1)
    let i2 := gazeRes.2.2.2
    let g := gazeRes.2.2.1
    let microRes : List (Fin 6 × ℚ) × ℕ :=
      if u i2 < 1/10 then
        ((move_servo_safe tbl 2 (g.1 + uniform (-5) 5 (u (i2 + 1)))).1 ++
          (move_servo_safe tbl 3 (g.2 + uniform (-5) 5 (u (i2 + 2)))).1 ++
          (move_servo_safe tbl 2 g.1).1 ++ (move_servo_safe tbl 3 g.2).1,
          i2 + 3)
      else ([], i2 + 1)
    blinkRes.1 ++ gazeRes.1 ++ microRes.1 ++
      human_eyes_loop tbl u ts fuel blinkRes.2.1 gazeRes.2.1 gazeRes.2.2.1
        microRes.2 (iter + 1)

/-- `human_eyes` (`final_human_bounds.py`, lines 383–470): refuse before
bounds detection (state untouched, no writes — the guard returns before
`human_eyes_active` is even set); otherwise run the loop from gaze at the
channel-2/3 centers with both timers at `ts 0`, and on exit return to
neutral with `human_eyes_active` reset. -/
def human_eyes (st : SysState) (u ts : ℕ → ℚ) (fuel : ℕ) :
    SysState × List (Fin 6 × ℚ) :=
  if st.bounds_detected = false then (st, [])
  else
    ({ st with human_eyes_active := false },
      human_eyes_loop st.table u ts fuel (ts 0) (ts 0)
        ((st.table 2).center, (st.table 3).center) 0 1 ++
      eyes_neutral_writes st.table)

/-- **C10.** Before calibration (`bounds_detected = false`), blink, all
four look commands and natural-movement mode are guarded no-ops: no servo
write is issued, the bounds table is untouched, and the flags other than
`command_in_progress` are untouched; `human_eyes` returns with the state
completely unchanged. -/
theorem precalibration_guards (st : SysState) (u ts : ℕ → ℚ) (fuel : ℕ)
    (h : st.bounds_detected = false) :
    ((eyes_blink st).2 = [] ∧ (eyes_blink st).1.table = st.table ∧
      (eyes_blink st).1.bounds_detected = false ∧
      (eyes_blink st).1.human_eyes_active = st.human_eyes_active) ∧
    ((eyes_look_up st).2 = [] ∧ (eyes_look_up st).1.table = st.table ∧
      (eyes_look_up st).1.bounds_detected = false ∧
      (eyes_look_up st).1.human_eyes_active = st.human_eyes_active) ∧
    ((eyes_look_down st).2 = [] ∧ (eyes_look_down st).1.table = st.table ∧
      (eyes_look_down st).1.bounds_detected = false ∧
      (eyes_look_down st).1.human_eyes_active = st.human_eyes_active) ∧
    ((eyes_look_left st).2 = [] ∧ (eyes_look_left st).1.table = st.table ∧
      (eyes_look_left st).1.bounds_detected = false ∧
      (eyes_look_left st).1.human_eyes_active = st.human_eyes_active) ∧
    ((eyes_look_right st).2 = [] ∧ (eyes_look_right st).1.table = st.table ∧
      (eyes_look_right st).1.bounds_detected = false ∧
      (eyes_look_right st).1.human_eyes_active = st.human_eyes_active) ∧
    human_eyes st u ts fuel = (st, []) := by
  simp [eyes_blink, eyes_look_up, eyes_look_down, eyes_look_left,
    eyes_look_right, human_eyes, h]

/-- The initial program state: nothing calibrated, default table. -/
def uncalibrated_state : SysState := ⟨false, false, false, initial_servo_bounds⟩

/-- Concrete instantiation of `precalibration_guards` on the initial
state. -/
theorem precalibration_guards_witness :
    (eyes_blink uncalibrated_state).2 = [] ∧
    human_eyes uncalibrated_state zero_trace zero_trace 5 =
      (uncalibrated_state, []) :=
  ⟨(precalibration_guards uncalibrated_state zero_trace zero_trace 5 rfl).1.1,
    (precalibration_guards uncalibrated_state zero_trace zero_trace 5
      rfl).2.2.2.2.2⟩

end HumanHead
